import Mathlib

/-!
Verification of the core fetch-diff-relay-persist cycle of an
Instagram-to-Discord mirror bot (`src/bot.py`), as a shallow embedding.

Conventions of the embedding:
* Python `Optional[str]` values are `Option String`; Python truthiness of
  such a value (`if x:` / `x and ...` / `x or d`) is modelled explicitly,
  since both `None` and `""` are falsy in Python.
* Network effects are abstracted by boolean oracles: `downloadOk url`
  says whether `client.get(url)` succeeds, `sendOk post` whether
  `channel.send` succeeds for that post's message.  An exception raised
  by a step makes the surrounding loop stop, which the embedding renders
  by returning the state reached so far.
* The persisted state file `state.json` holds the single record
  `{"last_shortcode": string | null}`; it is modelled at payload level as
  `Option (Option String)` (`none` = file absent, `some payload` = file
  present with that `last_shortcode` payload).
* Wall-clock times of day are modelled as `Nat` (for instance
  microseconds since midnight); Python `datetime.time` comparison is
  order-isomorphic to this.
-/

/-- One child item of a carousel (`GraphSidecar`) post, as produced by
`post.get_sidecar_nodes()`: an optional direct video URL and a
display-image URL. -/
structure SidecarNode where
  video_url : Option String
  display_url : String
deriving Repr, DecidableEq

/-- The fields of an `instaloader.Post` that `bot.py` reads.  `url` is the
display-image URL (`post.url`); `date_utc` is carried as the already
`strftime`-formatted timestamp string. -/
structure Post where
  shortcode : String
  caption : Option String
  typename : String
  is_video : Bool
  video_url : Option String
  url : String
  date_utc : String
  sidecar_nodes : List SidecarNode
deriving Repr, DecidableEq

/-- Python truthiness of an optional string: `None` and `""` are falsy. -/
def strTruthy : Option String → Bool
  | none => false
  | some s => s != ""

/-- Python `a or b` where `a` is an optional string and `b` a string:
returns `b` when `a` is `None` or empty. -/
def pyOr (a : Option String) (b : String) : String :=
  match a with
  | none => b
  | some s => if s = "" then b else s

/-!  ## Post Source: `InstagramFetcher._fetch_new_posts_sync`  -/

/-- The collection loop of `_fetch_new_posts_sync`, with the accumulator
`collected` made explicit.  For each post of the newest-first `listing`:
stop before collecting when `last_shortcode and post.shortcode ==
last_shortcode`; otherwise append the post and stop when
`len(collected) >= max_posts`. -/
def fetchLoop (last_shortcode : Option String) (max_posts : Nat) :
    List Post → List Post → List Post
  | collected, [] => collected
  | collected, p :: rest =>
    if strTruthy last_shortcode = true ∧ last_shortcode = some p.shortcode then
      collected
    else
      let collected := collected ++ [p]
      if max_posts ≤ collected.length then collected
      else fetchLoop last_shortcode max_posts collected rest

/-- `InstagramFetcher._fetch_new_posts_sync`: walk the newest-first
`listing`, collect new posts, and return them reversed (oldest-first). -/
def fetch_new_posts_sync (last_shortcode : Option String) (max_posts : Nat)
    (listing : List Post) : List Post :=
  (fetchLoop last_shortcode max_posts [] listing).reverse

/-- Structural (non-accumulator) form of the collection loop, used for
proofs; `fetchLoop_eq_fetchCollect` relates it to `fetchLoop`. -/
def fetchCollect (cursor : Option String) : Nat → List Post → List Post
  | _, [] => []
  | maxLeft, p :: rest =>
    if strTruthy cursor = true ∧ cursor = some p.shortcode then []
    else if maxLeft ≤ 1 then [p]
    else p :: fetchCollect cursor (maxLeft - 1) rest

/-!  ## Media Resolver and Relay Pipeline  -/

/-- The media-URL resolution of `InstaMirrorBot._relay_post`: a
`GraphSidecar` (carousel) maps each child to `node.video_url or
node.display_url` in child order; otherwise a video post with a truthy
`video_url` maps to that URL, and any other post to `post.url`. -/
def media_urls (p : Post) : List String :=
  if p.typename = "GraphSidecar" then
    p.sidecar_nodes.map (fun n => pyOr n.video_url n.display_url)
  else if p.is_video && strTruthy p.video_url then
    [(p.video_url).getD ""]
  else
    [p.url]

/-- A downloaded media asset wrapped as a `discord.File`: the generated
filename plus the URL it was downloaded from (standing in for the byte
buffer). -/
structure DFile where
  filename : String
  url : String
deriving Repr, DecidableEq

/-- Extension choice in `download_media`: `"mp4"` when the URL ends in
`.mp4`, else `"jpg"`. -/
def media_suffix (url : String) : String :=
  if url.endsWith ".mp4" then "mp4" else "jpg"

/-- The download loop of `download_media`, with `idx` the 1-based
`enumerate` counter.  A URL whose GET fails (`downloadOk url = false`)
raises, modelled as `Except.error url`; otherwise the file
`instagram_{idx}.{suffix}` is produced and the loop continues. -/
def downloadGo (downloadOk : String → Bool) : Nat → List String →
    Except String (List DFile)
  | _, [] => Except.ok []
  | idx, u :: rest =>
    if downloadOk u then
      match downloadGo downloadOk (idx + 1) rest with
      | Except.ok files =>
        Except.ok
          ({ filename := "instagram_" ++ toString idx ++ "." ++ media_suffix u,
             url := u } :: files)
      | Except.error e => Except.error e
    else Except.error u

/-- `download_media`: download the given URLs in order and wrap them as
Discord files; the first failing URL aborts the whole call. -/
def download_media (downloadOk : String → Bool) (urls : List String) :
    Except String (List DFile) :=
  downloadGo downloadOk 1 urls

/-- A message sent to the Discord channel: the composed text content and
the attached files. -/
structure Message where
  content : String
  files : List DFile
deriving Repr, DecidableEq

/-- The permalink composed in `_relay_post`. -/
def permalink (p : Post) : String :=
  "https://www.instagram.com/p/" ++ p.shortcode ++ "/"

/-- The `content_lines` list composed in `_relay_post`: header,
permalink, timestamp line, and, when the caption is non-empty, a blank
line followed by the stripped caption. -/
def content_lines (account : String) (p : Post) : List String :=
  let caption := pyOr p.caption ""
  let base := ["New Instagram post by **" ++ account ++ "**",
               permalink p,
               "Posted: " ++ p.date_utc]
  if caption ≠ "" then base ++ ["", caption.trim] else base

/-- `InstaMirrorBot._relay_post` observed through its effects: the list
of messages it sends to the channel (empty or a singleton) paired with
whether it returned normally (`true`) or raised (`false`).  Media URLs
are resolved, every asset is downloaded, and only then is the single
message sent; a failed download or a failed send raises before/at the
send, so no partial message exists.  (The best-effort embed-suppression
edit after the send has no effect on any state modelled here.) -/
def relay_post (account : String) (downloadOk : String → Bool)
    (sendOk : Post → Bool) (p : Post) : List Message × Bool :=
  match download_media downloadOk (media_urls p) with
  | Except.error _ => ([], false)
  | Except.ok files =>
    if sendOk p then
      ([{ content := String.intercalate "\n" (content_lines account p),
          files := files }], true)
    else ([], false)

/-!  ## Durable Cursor: `BotState`  -/

/-- The in-memory `BotState`: the `last_shortcode` field. -/
structure BotState where
  last_shortcode : Option String
deriving Repr, DecidableEq

/-- The persisted `state.json`, at payload level: `none` when the file
does not exist, `some payload` when it holds
`{"last_shortcode": payload}`. -/
abbrev FileSys := Option (Option String)

/-- `BotState.save`: overwrite the state file with the current
`last_shortcode` payload. -/
def BotState.save (st : BotState) : FileSys :=
  some st.last_shortcode

/-- `BotState.load`: a missing file leaves `last_shortcode` at its
initial `None`; otherwise the stored payload is taken. -/
def BotState.load (fs : FileSys) : BotState :=
  match fs with
  | none => { last_shortcode := none }
  | some payload => { last_shortcode := payload }

/-- The spec's `advance(id)` as the code performs it in
`_process_new_posts`: set `last_shortcode := id` then `save()`.  Returns
the new in-memory state and the new file contents. -/
def advance (id : String) (_fs : FileSys) : BotState × FileSys :=
  let st : BotState := { last_shortcode := some id }
  (st, st.save)

/-- A prior sequence of `advance` calls applied in order to an initial
file state. -/
def applyAdvances (fs : FileSys) : List String → FileSys
  | [] => fs
  | id :: rest => applyAdvances (advance id fs).2 rest

/-!  ## Scheduler cycle: `InstaMirrorBot._process_new_posts`  -/

/-- Observable system state across one polling cycle: the in-memory
`BotState`, the persisted file, the messages sent to the channel so
far, and the shortcodes of the posts on which `_relay_post` was invoked
(in invocation order). -/
structure SysState where
  state : BotState
  fs : FileSys
  sent : List Message
  attempted : List String
deriving Repr, DecidableEq

/-- The relay loop of `_process_new_posts` (lines 356-359): for each
fetched post in oldest-first order, call `_relay_post`; on success set
`last_shortcode` to the post's shortcode and `save()`, then continue;
when `_relay_post` raises, the exception propagates and the remaining
posts are not attempted in this cycle. -/
def processPosts (account : String) (downloadOk : String → Bool)
    (sendOk : Post → Bool) : SysState → List Post → SysState
  | st, [] => st
  | st, p :: rest =>
    let r := relay_post account downloadOk sendOk p
    let st' := { st with attempted := st.attempted ++ [p.shortcode],
                         sent := st.sent ++ r.1 }
    if r.2 then
      let state' : BotState := { last_shortcode := some p.shortcode }
      processPosts account downloadOk sendOk
        { st' with state := state', fs := state'.save } rest
    else st'

/-- `InstaMirrorBot._process_new_posts`: when the cursor is absent and
backfill is disabled, fetch at most one post and seed the cursor from it
without relaying; otherwise fetch with `max_posts = 1 if last_shortcode
is None else 3` and run the relay loop (returning immediately when
nothing was fetched). -/
def process_new_posts (account : String) (downloadOk : String → Bool)
    (sendOk : Post → Bool) (backfill_on_start : Bool) (listing : List Post)
    (st : SysState) : SysState :=
  let last_shortcode := st.state.last_shortcode
  if last_shortcode.isNone && !backfill_on_start then
    match (fetch_new_posts_sync none 1 listing).getLast? with
    | none => st
    | some lp =>
      let state' : BotState := { last_shortcode := some lp.shortcode }
      { st with state := state', fs := state'.save }
  else
    let max_posts := if last_shortcode.isNone then 1 else 3
    let posts := fetch_new_posts_sync last_shortcode max_posts listing
    if posts.isEmpty then st
    else processPosts account downloadOk sendOk st posts

/-!  ## Time Window Evaluator: `InstaMirrorBot.within_evening_window`  -/

/-- `within_evening_window`, with times of day as `Nat`: the closed
interval `[start, endT]` when `start ≤ endT`, otherwise the midnight
wrap-around `t ≥ start or t ≤ endT`. -/
def within_evening_window (start endT t : Nat) : Bool :=
  if start ≤ endT then decide (start ≤ t ∧ t ≤ endT)
  else decide (t ≥ start ∨ t ≤ endT)

/-!  ## Byte-level model of `BotState.save` for crash atomicity  -/

/-- The JSON text `json.dump({"last_shortcode": ...}, fp, indent=2)`
writes for a given payload. -/
def stateJson (c : Option String) : String :=
  "\x7b\n  \"last_shortcode\": " ++
    (match c with
     | none => "null"
     | some s => "\"" ++ s ++ "\"") ++ "\n\x7d"

/-- The file contents observable if the process crashes during
`BotState.save`: `open(path, "w")` first truncates the file, then the
JSON text is written to it sequentially, so every prefix of the new
content (including the empty file) is an observable crash state. -/
def save_crash_states (newContent : String) : List String :=
  (List.range (newContent.length + 1)).map (fun n => newContent.take n)

/-!  ## Definitions taken from the spec's words (for refinement claims)  -/

/-- The collection walk of `fetchNew` as the spec states it (section
4.3): walk the newest-first list, collecting posts until a post whose
identifier equals the cursor is met (stop, excluded), until `maxCount`
posts have been collected, or until the list is exhausted. -/
def specCollect (cursor : Option String) : Nat → List Post → List Post
  | 0, _ => []
  | _ + 1, [] => []
  | maxCount + 1, p :: rest =>
    if cursor = some p.shortcode then []
    else p :: specCollect cursor maxCount rest

/-!  ## Helpers for stating the claims  -/

/-- Identifier of the last post of `pre` (the last successfully relayed
one), or the starting cursor when `pre` is empty. -/
def lastCursor (c : Option String) : List Post → Option String
  | [] => c
  | p :: rest => lastCursor (some p.shortcode) rest

/-- File contents after persisting each post of `pre` in order, starting
from `fs`. -/
def lastFs (fs : FileSys) : List Post → FileSys
  | [] => fs
  | p :: rest => lastFs (some (some p.shortcode)) rest

/-- A minimal single-image post with the given shortcode, used for
concrete test inputs. -/
def mkPost (sc : String) : Post :=
  { shortcode := sc
    caption := none
    typename := "GraphImage"
    is_video := false
    video_url := none
    url := "https://img.example/" ++ sc ++ ".jpg"
    date_utc := "2026-01-01 00:00 UTC"
    sidecar_nodes := [] }

/-- The spec's reverse-chronological example listing `[P5,P4,P3,P2,P1]`. -/
def demoListing : List Post :=
  [mkPost "P5", mkPost "P4", mkPost "P3", mkPost "P2", mkPost "P1"]

/-- Download oracle under which every URL succeeds. -/
def allOk : String → Bool := fun _ => true

/-- Send oracle under which every send succeeds. -/
def allSendOk : Post → Bool := fun _ => true

/-- Send oracle under which exactly the post `Q2` fails to send. -/
def failQ2 : Post → Bool := fun p => p.shortcode != "Q2"

/-- A starting system state whose cursor is already at `Q0`. -/
def st0demo : SysState :=
  { state := { last_shortcode := some "Q0" }
    fs := some (some "Q0")
    sent := []
    attempted := [] }

/-- A fresh system state: no cursor, no state file, nothing sent. -/
def st00 : SysState :=
  { state := { last_shortcode := none }
    fs := none
    sent := []
    attempted := [] }

/-- A reverse-chronological listing of three posts `R3` (newest), `R2`,
`R1`. -/
def rListing : List Post := [mkPost "R3", mkPost "R2", mkPost "R1"]

/-- The spec's example carousel with children `[imgA, videoB, imgC]`. -/
def carouselDemo : Post :=
  { shortcode := "CAR1"
    caption := none
    typename := "GraphSidecar"
    is_video := false
    video_url := none
    url := "https://img.example/CAR1.jpg"
    date_utc := "2026-01-01 00:00 UTC"
    sidecar_nodes :=
      [{ video_url := none, display_url := "urlA" },
       { video_url := some "videoUrlB", display_url := "posterB" },
       { video_url := none, display_url := "urlC" }] }

/-- A single-video post with a direct video URL. -/
def vidDemo : Post :=
  { mkPost "VID1" with
      typename := "GraphVideo"
      is_video := true
      video_url := some "https://video.example/VID1.mp4" }

/-- A single-image post. -/
def imgDemo : Post := mkPost "IMG1"

/-- A single-image post whose display URL is `https://bad.example/x.jpg`. -/
def badPost : Post :=
  { mkPost "BAD1" with url := "https://bad.example/x.jpg" }

/-- Download oracle under which exactly `https://bad.example/x.jpg`
fails. -/
def failBadUrl : String → Bool := fun u => u != "https://bad.example/x.jpg"

/-!  ## Helper lemmas  -/

theorem fetchLoop_eq_fetchCollect (cursor : Option String) (maxp : Nat) :
    ∀ (listing acc : List Post),
      fetchLoop cursor maxp acc listing =
        acc ++ fetchCollect cursor (maxp - acc.length) listing := by
  intro listing
  induction listing with
  | nil => intro acc; simp [fetchLoop, fetchCollect]
  | cons p rest ih =>
    intro acc
    by_cases hg : strTruthy cursor = true ∧ cursor = some p.shortcode
    · simp only [fetchLoop, fetchCollect]
      rw [if_pos hg, if_pos hg]
      simp
    · by_cases hm : maxp ≤ acc.length + 1
      · have hm' : maxp - acc.length ≤ 1 := by omega
        simp [fetchLoop, fetchCollect, hg, hm, hm']
      · have hm' : ¬ maxp - acc.length ≤ 1 := by omega
        have hlen : maxp - (acc ++ [p]).length = maxp - acc.length - 1 := by
          simp; omega
        simp only [fetchLoop, List.length_append, List.length_cons,
          List.length_nil, Nat.zero_add]
        rw [if_neg hg, if_neg (by simpa using hm), ih (acc ++ [p])]
        simp [fetchCollect, hg, hm', hlen]
        have h2 : maxp - (acc.length + 1) = maxp - acc.length - 1 := by omega
        rw [h2]

theorem fetch_eq_collect (cursor : Option String) (maxp : Nat)
    (listing : List Post) :
    fetch_new_posts_sync cursor maxp listing =
      (fetchCollect cursor maxp listing).reverse := by
  unfold fetch_new_posts_sync
  rw [fetchLoop_eq_fetchCollect]
  simp

theorem fetchCollect_none (maxp : Nat) (listing : List Post)
    (hm : 0 < maxp) :
    fetchCollect none maxp listing = listing.take maxp := by
  induction listing generalizing maxp with
  | nil => simp [fetchCollect]
  | cons p rest ih =>
    have hg : ¬(strTruthy (none : Option String) = true ∧
        (none : Option String) = some p.shortcode) := by
      intro h
      exact Option.noConfusion h.2
    by_cases h1 : maxp ≤ 1
    · have : maxp = 1 := by omega
      subst this
      simp [fetchCollect, hg]
    · have h2 : 0 < maxp - 1 := by omega
      have h3 : maxp = (maxp - 1) + 1 := by omega
      simp only [fetchCollect, if_neg hg, if_neg h1, ih (maxp - 1) h2]
      rw [h3]
      simp

theorem fetchCollect_notin (c : String) (maxp : Nat) (listing : List Post)
    (hm : 0 < maxp) (hc : c ∉ listing.map Post.shortcode) :
    fetchCollect (some c) maxp listing = listing.take maxp := by
  induction listing generalizing maxp with
  | nil => simp [fetchCollect]
  | cons p rest ih =>
    have hne : c ≠ p.shortcode := by
      intro h; exact hc (by simp [h])
    have hg : ¬(strTruthy (some c) = true ∧
        (some c : Option String) = some p.shortcode) := by
      intro h
      exact hne (Option.some_injective _ h.2)
    by_cases h1 : maxp ≤ 1
    · have : maxp = 1 := by omega
      subst this
      simp only [fetchCollect, if_neg hg]
      simp
    · have h2 : 0 < maxp - 1 := by omega
      have hc' : c ∉ rest.map Post.shortcode := by
        intro h; exact hc (by simp [h])
      have h3 : maxp = (maxp - 1) + 1 := by omega
      simp only [fetchCollect, if_neg hg, if_neg h1, ih (maxp - 1) h2 hc']
      rw [h3]
      simp

theorem fetchCollect_eq_specCollect (cursor : Option String)
    (maxp : Nat) (listing : List Post)
    (hm : 0 < maxp) (hc : cursor ≠ some "") :
    fetchCollect cursor maxp listing = specCollect cursor maxp listing := by
  induction listing generalizing maxp with
  | nil =>
    obtain ⟨m, rfl⟩ : ∃ m, maxp = m + 1 := ⟨maxp - 1, by omega⟩
    simp [fetchCollect, specCollect]
  | cons p rest ih =>
    obtain ⟨m, rfl⟩ : ∃ m, maxp = m + 1 := ⟨maxp - 1, by omega⟩
    by_cases hcur : cursor = some p.shortcode
    · have hps : p.shortcode ≠ "" := by
        intro h
        exact hc (by rw [hcur, h])
      have hg : strTruthy cursor = true ∧ cursor = some p.shortcode := by
        refine ⟨?_, hcur⟩
        rw [hcur]
        simp [strTruthy, hps]
      simp only [fetchCollect, specCollect, if_pos hg, if_pos hcur]
    · have hg : ¬(strTruthy cursor = true ∧ cursor = some p.shortcode) :=
        fun h => hcur h.2
      by_cases h1 : m + 1 ≤ 1
      · have : m = 0 := by omega
        subst this
        simp [fetchCollect, specCollect, hg, hcur]
      · have h2 : 0 < m := by omega
        simp only [fetchCollect, specCollect, if_neg hg, if_neg hcur,
          if_neg h1, Nat.add_sub_cancel]
        rw [ih m h2]

theorem fetch_none_one (p : Post) (rest : List Post) :
    fetch_new_posts_sync none 1 (p :: rest) = [p] := by
  rw [fetch_eq_collect]
  rfl

theorem relay_post_fail_no_message (account : String)
    (downloadOk : String → Bool) (sendOk : Post → Bool) (p : Post)
    (h : (relay_post account downloadOk sendOk p).2 = false) :
    (relay_post account downloadOk sendOk p).1 = [] := by
  unfold relay_post at *
  cases hd : download_media downloadOk (media_urls p) with
  | error e => simp [hd]
  | ok files =>
    rw [hd] at h
    by_cases hs : sendOk p = true
    · simp [hs] at h
    · simp [hs]

theorem downloadGo_error (downloadOk : String → Bool) :
    ∀ (urls : List String) (idx : Nat) (u : String), u ∈ urls →
      downloadOk u = false →
      ∃ e, downloadGo downloadOk idx urls = Except.error e := by
  intro urls
  induction urls with
  | nil => intro idx u hu; simp at hu
  | cons v rest ih =>
    intro idx u hu hdu
    by_cases hv : downloadOk v = true
    · have huv : u ∈ rest := by
        rcases List.mem_cons.mp hu with h | h
        · rw [h] at hdu; rw [hdu] at hv; exact absurd hv (by simp)
        · exact h
      obtain ⟨e, he⟩ := ih (idx + 1) u huv hdu
      refine ⟨e, ?_⟩
      simp [downloadGo, hv, he]
    · refine ⟨v, ?_⟩
      simp [downloadGo, hv]

/-!  ## Claim theorems  -/

/-- Claim C7: the time window evaluator is a pure total function such
that for every configured start/end pair and every time `t`: when
`start ≤ endT` it returns true exactly when `start ≤ t ≤ endT` (closed
interval), and when `start > endT` it returns true exactly when
`t ≥ start` or `t ≤ endT` (midnight wrap-around). -/
theorem C7_within_window_correct : ∀ start endT t : Nat,
    (start ≤ endT →
      (within_evening_window start endT t = true ↔ (start ≤ t ∧ t ≤ endT))) ∧
    (endT < start →
      (within_evening_window start endT t = true ↔ (t ≥ start ∨ t ≤ endT))) := by
  intro s e t
  constructor
  · intro h
    unfold within_evening_window
    rw [if_pos h]
    simp
  · intro h
    unfold within_evening_window
    rw [if_neg (by omega)]
    simp

theorem C7_within_window_correct_witness :
    (within_evening_window 1020 1439 1100 = true ↔ (1020 ≤ 1100 ∧ 1100 ≤ 1439)) ∧
    (within_evening_window 1260 120 60 = true ↔ (60 ≥ 1260 ∨ 60 ≤ 120)) :=
  ⟨(C7_within_window_correct 1020 1439 1100).1 (by decide),
   (C7_within_window_correct 1260 120 60).2 (by decide)⟩

/-- Claim C9: for every identifier and every prior sequence of advances,
`advance id` followed by `load` yields exactly the just-advanced
identifier. -/
theorem C9_advance_load_roundtrip :
    ∀ (id : String) (prior : List String) (fs0 : FileSys),
      (BotState.load (advance id (applyAdvances fs0 prior)).2).last_shortcode
        = some id := by
  intro id prior fs0
  rfl

/-- Claim C2: for every reverse-chronological post list, cursor and
positive `maxCount` (with a well-formed, non-empty cursor identifier),
`fetch_new_posts_sync` returns exactly the spec's walk — collect
newest-first until the cursor post (excluded), until `maxCount`
collected, or until exhaustion — reversed to oldest-first; and on the
spec's example `[P5,P4,P3,P2,P1]` with cursor `P3` and `maxCount = 3` it
returns `[P4,P5]`. -/
theorem C2_fetchNew_matches_spec :
    (∀ (cursor : Option String) (maxCount : Nat) (listing : List Post),
        0 < maxCount → cursor ≠ some "" →
        fetch_new_posts_sync cursor maxCount listing =
          (specCollect cursor maxCount listing).reverse) ∧
    fetch_new_posts_sync (some "P3") 3 demoListing = [mkPost "P4", mkPost "P5"] := by
  constructor
  · intro cursor maxCount listing hm hc
    rw [fetch_eq_collect, fetchCollect_eq_specCollect cursor maxCount listing hm hc]
  · rfl

theorem C2_fetchNew_matches_spec_witness :
    0 < 2 ∧ (some "P3" : Option String) ≠ some "" ∧
    fetch_new_posts_sync (some "P3") 2 demoListing =
      (specCollect (some "P3") 2 demoListing).reverse :=
  ⟨by decide, by decide,
   C2_fetchNew_matches_spec.1 (some "P3") 2 demoListing (by decide) (by decide)⟩

/-- Claim C10: if the stored cursor identifier occurs nowhere in the
listing, `fetch_new_posts_sync` does not stop early: it returns the
`maxCount` newest posts (all posts if fewer exist) oldest-first, exactly
as if the cursor were absent. -/
theorem C10_fetch_with_vanished_cursor :
    ∀ (c : String) (maxCount : Nat) (listing : List Post),
      0 < maxCount → c ∉ listing.map Post.shortcode →
      fetch_new_posts_sync (some c) maxCount listing =
          (listing.take maxCount).reverse ∧
      fetch_new_posts_sync (some c) maxCount listing =
          fetch_new_posts_sync none maxCount listing := by
  intro c maxCount listing hm hc
  have h1 : fetch_new_posts_sync (some c) maxCount listing =
      (listing.take maxCount).reverse := by
    rw [fetch_eq_collect, fetchCollect_notin c maxCount listing hm hc]
  refine ⟨h1, ?_⟩
  rw [h1, fetch_eq_collect, fetchCollect_none maxCount listing hm]

theorem C10_fetch_with_vanished_cursor_witness :
    fetch_new_posts_sync (some "GONE") 3 demoListing =
        (demoListing.take 3).reverse ∧
    fetch_new_posts_sync (some "GONE") 3 demoListing =
        fetch_new_posts_sync none 3 demoListing :=
  C10_fetch_with_vanished_cursor "GONE" 3 demoListing (by decide) (by decide)

/-- Claim C3: on a cycle where the cursor is absent and backfill is
disabled, the scheduler fetches at most the single newest post, sets and
persists the cursor to that post's identifier, and relays nothing (no
message is sent and no relay is attempted). -/
theorem C3_seed_cursor_without_relaying :
    ∀ (account : String) (downloadOk : String → Bool) (sendOk : Post → Bool)
      (st : SysState) (listing : List Post),
      st.state.last_shortcode = none →
      ((process_new_posts account downloadOk sendOk false listing st).sent
          = st.sent ∧
       (process_new_posts account downloadOk sendOk false listing st).attempted
          = st.attempted) ∧
      (listing = [] →
        process_new_posts account downloadOk sendOk false listing st = st) ∧
      (∀ p rest, listing = p :: rest →
        (process_new_posts account downloadOk sendOk false listing st).state.last_shortcode
            = some p.shortcode ∧
        (process_new_posts account downloadOk sendOk false listing st).fs
            = some (some p.shortcode)) := by
  intro account dOk sOk st listing h
  cases listing with
  | nil =>
    have hf : fetch_new_posts_sync none 1 ([] : List Post) = [] := rfl
    refine ⟨⟨?_, ?_⟩, fun _ => ?_, fun p rest hpr => absurd hpr (by simp)⟩ <;>
      simp [process_new_posts, h, hf]
  | cons p rest =>
    have hf := fetch_none_one p rest
    refine ⟨⟨?_, ?_⟩, fun heq => absurd heq (by simp), fun q qrest hpr => ?_⟩
    · simp [process_new_posts, h, hf]
    · simp [process_new_posts, h, hf]
    · injection hpr with h1 h2
      subst h1
      constructor
      · simp [process_new_posts, h, hf]
      · simp [process_new_posts, h, hf, BotState.save]

theorem C3_seed_cursor_without_relaying_witness :
    (process_new_posts "acct" allOk allSendOk false rListing st00).sent
        = st00.sent ∧
    (process_new_posts "acct" allOk allSendOk false rListing st00).attempted
        = st00.attempted ∧
    (process_new_posts "acct" allOk allSendOk false rListing st00).state.last_shortcode
        = some (mkPost "R3").shortcode ∧
    (process_new_posts "acct" allOk allSendOk false rListing st00).fs
        = some (some (mkPost "R3").shortcode) :=
  ⟨(C3_seed_cursor_without_relaying "acct" allOk allSendOk st00 rListing rfl).1.1,
   (C3_seed_cursor_without_relaying "acct" allOk allSendOk st00 rListing rfl).1.2,
   ((C3_seed_cursor_without_relaying "acct" allOk allSendOk st00 rListing rfl).2.2
      (mkPost "R3") [mkPost "R2", mkPost "R1"] rfl).1,
   ((C3_seed_cursor_without_relaying "acct" allOk allSendOk st00 rListing rfl).2.2
      (mkPost "R3") [mkPost "R2", mkPost "R1"] rfl).2⟩

/-- Claim C4 is false on the code: with the cursor absent and backfill
explicitly enabled — a non-seeding cycle by the claim's own phrasing —
`_process_new_posts` computes `max_posts = 1 if last_shortcode is None
else 3`, i.e. it fetches at most 1 post, not up to 3: on a fresh state
with three available posts and all relays succeeding, only the single
newest post is attempted, while a fetch bounded by 3 would have yielded
all three. -/
theorem C4_counterexample :
    (process_new_posts "acct" allOk allSendOk true rListing st00).attempted
        = ["R3"] ∧
    (fetch_new_posts_sync none 3 rListing).map Post.shortcode
        = ["R1", "R2", "R3"] ∧
    (process_new_posts "acct" allOk allSendOk true rListing st00).attempted
        ≠ (fetch_new_posts_sync none 3 rListing).map Post.shortcode := by
  refine ⟨?_, ?_, ?_⟩ <;> decide

/-- Claim C4 (amended): on a non-seeding cycle the fetch bound is
`1 if last_shortcode is None else 3`: whenever a cursor is present the
scheduler fetches up to 3 new posts per cycle; when the cursor is absent
(backfill enabled), it fetches at most the single newest post. -/
theorem C4_fetch_bound :
    (∀ (account : String) (downloadOk : String → Bool) (sendOk : Post → Bool)
       (backfill : Bool) (listing : List Post) (st : SysState) (s : String),
        st.state.last_shortcode = some s →
        process_new_posts account downloadOk sendOk backfill listing st =
          (if (fetch_new_posts_sync (some s) 3 listing).isEmpty then st
           else processPosts account downloadOk sendOk st
             (fetch_new_posts_sync (some s) 3 listing))) ∧
    (∀ (account : String) (downloadOk : String → Bool) (sendOk : Post → Bool)
       (listing : List Post) (st : SysState),
        st.state.last_shortcode = none →
        process_new_posts account downloadOk sendOk true listing st =
          (if (fetch_new_posts_sync none 1 listing).isEmpty then st
           else processPosts account downloadOk sendOk st
             (fetch_new_posts_sync none 1 listing))) := by
  constructor
  · intro account dOk sOk backfill listing st s h
    simp [process_new_posts, h]
  · intro account dOk sOk listing st h
    simp [process_new_posts, h]

theorem C4_fetch_bound_witness :
    process_new_posts "acct" allOk allSendOk false demoListing st0demo =
      (if (fetch_new_posts_sync (some "Q0") 3 demoListing).isEmpty then st0demo
       else processPosts "acct" allOk allSendOk st0demo
         (fetch_new_posts_sync (some "Q0") 3 demoListing)) :=
  C4_fetch_bound.1 "acct" allOk allSendOk false demoListing st0demo "Q0" rfl

/-- Claim C1: for every relay sequence, the durable cursor is advanced
and persisted to a post's identifier only after that post was relayed;
if the k-th post of the sequence fails to relay, no later post is
attempted in that cycle, and cursor and state file stay at the
identifier of the last successfully relayed post (or their starting
values when the first post fails). -/
theorem C1_relay_failure_stops_sequence :
    ∀ (account : String) (downloadOk : String → Bool) (sendOk : Post → Bool)
      (st : SysState) (pre : List Post) (pk : Post) (suf : List Post),
      (∀ p ∈ pre, (relay_post account downloadOk sendOk p).2 = true) →
      (relay_post account downloadOk sendOk pk).2 = false →
      (processPosts account downloadOk sendOk st (pre ++ pk :: suf)).state.last_shortcode
          = lastCursor st.state.last_shortcode pre ∧
      (processPosts account downloadOk sendOk st (pre ++ pk :: suf)).fs
          = lastFs st.fs pre ∧
      (processPosts account downloadOk sendOk st (pre ++ pk :: suf)).attempted
          = st.attempted ++ pre.map Post.shortcode ++ [pk.shortcode] ∧
      (processPosts account downloadOk sendOk st (pre ++ pk :: suf)).sent
          = st.sent ++
              (pre.map (fun p => (relay_post account downloadOk sendOk p).1)).flatten := by
  intro account dOk sOk st pre pk suf
  induction pre generalizing st with
  | nil =>
    intro hpre hk
    have h1 := relay_post_fail_no_message account dOk sOk pk hk
    simp [processPosts, hk, h1, lastCursor, lastFs]
  | cons p pre ih =>
    intro hpre hk
    have hp : (relay_post account dOk sOk p).2 = true := hpre p (by simp)
    have hpre' : ∀ q ∈ pre, (relay_post account dOk sOk q).2 = true :=
      fun q hq => hpre q (by simp [hq])
    have hstep : processPosts account dOk sOk st ((p :: pre) ++ pk :: suf) =
        processPosts account dOk sOk
          { state := { last_shortcode := some p.shortcode },
            fs := some (some p.shortcode),
            sent := st.sent ++ (relay_post account dOk sOk p).1,
            attempted := st.attempted ++ [p.shortcode] }
          (pre ++ pk :: suf) := by
      simp [processPosts, hp, BotState.save]
    rw [hstep]
    obtain ⟨ih1, ih2, ih3, ih4⟩ := ih _ hpre' hk
    refine ⟨?_, ?_, ?_, ?_⟩
    · rw [ih1]; rfl
    · rw [ih2]; rfl
    · rw [ih3]; simp
    · rw [ih4]; simp

theorem C1_relay_failure_stops_sequence_witness :
    (∀ p ∈ [mkPost "Q1"], (relay_post "acct" allOk failQ2 p).2 = true) ∧
    (relay_post "acct" allOk failQ2 (mkPost "Q2")).2 = false ∧
    ((processPosts "acct" allOk failQ2 st0demo
        ([mkPost "Q1"] ++ mkPost "Q2" :: [mkPost "Q3"])).state.last_shortcode
        = lastCursor st0demo.state.last_shortcode [mkPost "Q1"] ∧
     (processPosts "acct" allOk failQ2 st0demo
        ([mkPost "Q1"] ++ mkPost "Q2" :: [mkPost "Q3"])).fs
        = lastFs st0demo.fs [mkPost "Q1"] ∧
     (processPosts "acct" allOk failQ2 st0demo
        ([mkPost "Q1"] ++ mkPost "Q2" :: [mkPost "Q3"])).attempted
        = st0demo.attempted ++ [mkPost "Q1"].map Post.shortcode
            ++ [(mkPost "Q2").shortcode] ∧
     (processPosts "acct" allOk failQ2 st0demo
        ([mkPost "Q1"] ++ mkPost "Q2" :: [mkPost "Q3"])).sent
        = st0demo.sent ++
            ([mkPost "Q1"].map (fun p => (relay_post "acct" allOk failQ2 p).1)).flatten) :=
  ⟨by decide, by decide,
   C1_relay_failure_stops_sequence "acct" allOk failQ2 st0demo
     [mkPost "Q1"] (mkPost "Q2") [mkPost "Q3"] (by decide) (by decide)⟩

/-- Claim C5: if downloading any single media asset of a post fails, the
relay of that entire post is aborted before any message is sent, and the
cursor (in memory and on disk) is not advanced, so the post is retried
on the next cycle; the remaining state change of the cycle is only the
record of the attempted post. -/
theorem C5_download_failure_aborts_relay :
    ∀ (account : String) (downloadOk : String → Bool) (sendOk : Post → Bool)
      (p : Post) (u : String) (st : SysState) (rest : List Post),
      u ∈ media_urls p → downloadOk u = false →
      relay_post account downloadOk sendOk p = ([], false) ∧
      processPosts account downloadOk sendOk st (p :: rest) =
        { st with attempted := st.attempted ++ [p.shortcode] } := by
  intro account dOk sOk p u st rest hu hdu
  obtain ⟨e, he⟩ := downloadGo_error dOk (media_urls p) 1 u hu hdu
  have hr : relay_post account dOk sOk p = ([], false) := by
    unfold relay_post download_media
    rw [he]
  refine ⟨hr, ?_⟩
  obtain ⟨s1, s2, s3, s4⟩ := st
  simp [processPosts, hr]

theorem C5_download_failure_aborts_relay_witness :
    "https://bad.example/x.jpg" ∈ media_urls badPost ∧
    failBadUrl "https://bad.example/x.jpg" = false ∧
    relay_post "acct" failBadUrl allSendOk badPost = ([], false) ∧
    processPosts "acct" failBadUrl allSendOk st0demo [badPost] =
      { st0demo with attempted := st0demo.attempted ++ [badPost.shortcode] } :=
  ⟨by decide, by decide,
   (C5_download_failure_aborts_relay "acct" failBadUrl allSendOk badPost
      "https://bad.example/x.jpg" st0demo [] (by decide) (by decide)).1,
   (C5_download_failure_aborts_relay "acct" failBadUrl allSendOk badPost
      "https://bad.example/x.jpg" st0demo [] (by decide) (by decide)).2⟩

/-- Claim C6 is violated by the code: `BotState.save` rewrites
`state.json` in place (`open(path, "w")` truncates the file, then
`json.dump` writes into it), with no temporary file and rename.  A crash
immediately after the truncation leaves the empty file on disk — an
observable state that is neither the old value (cursor `A`) nor the new
one (cursor `B`), contradicting the claimed old-or-new atomicity. -/
theorem C6_save_not_crash_atomic :
    "" ∈ save_crash_states (stateJson (some "B")) ∧
    "" ≠ stateJson (some "A") ∧
    "" ≠ stateJson (some "B") := by
  refine ⟨?_, ?_, ?_⟩ <;> decide

/-- Claim C8: the media resolver maps every carousel to one URL per
child in exactly the source's child order, taking the child's video URL
when present and otherwise its display-image URL (example children
`[imgA, videoB, imgC]` resolve to `[urlA, videoUrlB, urlC]`); a
single-video post resolves to its direct video URL, a single-image post
to its display-image URL. -/
theorem C8_media_resolver_correct :
    (∀ p : Post, p.typename = "GraphSidecar" →
        media_urls p =
          p.sidecar_nodes.map (fun n => pyOr n.video_url n.display_url)) ∧
    (∀ (p : Post) (v : String), p.typename ≠ "GraphSidecar" →
        p.is_video = true → p.video_url = some v → v ≠ "" →
        media_urls p = [v]) ∧
    (∀ p : Post, p.typename ≠ "GraphSidecar" → p.is_video = false →
        media_urls p = [p.url]) ∧
    media_urls carouselDemo = ["urlA", "videoUrlB", "urlC"] := by
  refine ⟨?_, ?_, ?_, ?_⟩
  · intro p h
    simp [media_urls, h]
  · intro p v h1 h2 h3 h4
    simp [media_urls, h1, h2, h3, strTruthy, h4]
  · intro p h1 h2
    simp [media_urls, h1, h2]
  · rfl

theorem C8_media_resolver_correct_witness :
    media_urls carouselDemo =
        carouselDemo.sidecar_nodes.map (fun n => pyOr n.video_url n.display_url) ∧
    media_urls vidDemo = ["https://video.example/VID1.mp4"] ∧
    media_urls imgDemo = [imgDemo.url] :=
  ⟨C8_media_resolver_correct.1 carouselDemo rfl,
   C8_media_resolver_correct.2.1 vidDemo "https://video.example/VID1.mp4"
     (by decide) rfl rfl (by decide),
   C8_media_resolver_correct.2.2.1 imgDemo (by decide) rfl⟩
